import Mathlib

/-! Verification development for the Fluffy Diver Vita port's audio engine
    (source/audio.c): a shallow embedding of the engine state and of its
    operations, followed by theorems checking the specified voice-pool,
    mixer, reaper and lifecycle behaviour against that embedding.

    Modelling conventions:
    * C floats become rationals; C ints become Int, array indices Nat.
    * The OpenAL backend is represented by the data the code reads back from
      it: the per-slot AL_SOURCE_STATE query is an oracle `stopped : Nat →
      Bool` passed to the operations that poll it, and the last gain written
      through alSourcef(AL_GAIN) is recorded in the slot (`gain` field).
    * File I/O (load_wav_file) is an oracle Bool; load_ogg_file always fails,
      exactly as in the source.
    * The ghost field `completed` logs each invocation of the completion
      callback audio_mark_complete with its argument, so callback counting is
      observable. -/

namespace FluffyAudio

/-- Codec tags as produced by detect_audio_format in source/audio.c. -/
inductive AudioFormat where
  | unknown
  | wav
  | ogg
  | mp3
  | raw
deriving DecidableEq

/-- Volume category of the spec's data model: Music vs Effect. -/
inductive Category where
  | music
  | effect
deriving DecidableEq

/-- One playback slot (audio_source_t, source/audio.c:43-56).  `gain` records
    the last value written to the backend via alSourcef(AL_GAIN), `buffer`
    the buffer-pool index bound with alSourcei(AL_BUFFER).  The ALuint
    handles and the monotonic start_time stay outside the model (backend
    handles and clock). -/
structure Source where
  buffer : Int
  sound_id : Int
  active : Bool
  playing : Bool
  looping : Bool
  volume : ℚ
  pitch : ℚ
  gain : ℚ
  format : AudioFormat
  priority : Int
  filename : String
deriving DecidableEq

/-- Engine state (audio_state_t, source/audio.c:74-108).  The stream array,
    next_source_index and next_stream_index drive no behaviour in the source
    (update_audio_streams is an empty TODO) and are omitted; device, context
    and thread handles are represented by status booleans. -/
structure AudioState where
  initialized : Bool
  device_open : Bool
  context_ready : Bool
  sources : List Source
  next_buffer_index : Int
  master_volume : ℚ
  music_volume : ℚ
  sfx_volume : ℚ
  audio_enabled : Bool
  music_enabled : Bool
  sfx_enabled : Bool
  active_sources : Int
  next_sound_id : Int
  audio_thread_running : Bool
  audio_thread_started : Bool
  completed : List Int
deriving DecidableEq

/-- MAX_AUDIO_SOURCES of source/audio.c. -/
def MAX_AUDIO_SOURCES : Nat := 32

/-- Position of the first element satisfying p, the way the C for-loops scan
    the source array in index order. -/
def findFirstIdx (p : Source → Bool) : List Source → Option Nat
  | [] => none
  | s :: rest => if p s then some 0 else (findFirstIdx p rest).map (· + 1)

/-- Rule-2 scan of get_available_source: the first active slot whose backend
    state reads AL_STOPPED, indices counted from `base`. -/
def findReclaimIdx (stopped : Nat → Bool) : List Source → Nat → Option Nat
  | [], _ => none
  | s :: rest, base =>
    if s.active && stopped base then some base else findReclaimIdx stopped rest (base + 1)

/-- Rule-3 scan of get_available_source: the running (lowest_priority,
    lowest_index) fold, with the C initial accumulator (1000, -1). -/
def stealFold : List Source → Nat → Int × Int → Int × Int
  | [], _, acc => acc
  | s :: rest, base, (lp, li) =>
    stealFold rest (base + 1)
      (if s.active && decide (s.priority < lp) then (s.priority, (base : Int)) else (lp, li))

/-- Field writes shared by eviction, reclamation, audio_stop_sound and the
    reaper's release: active = playing = 0 and sound_id = 0. -/
def releasedSlot (s : Source) : Source :=
  { s with active := false, playing := false, sound_id := 0 }

/-- Release slot i and decrement active_sources, as rules 2 and 3 of
    get_available_source and as audio_stop_sound do on their hit. -/
def releaseAt (st : AudioState) (i : Nat) : AudioState :=
  match st.sources[i]? with
  | none => st
  | some s =>
    { st with sources := st.sources.set i (releasedSlot s),
              active_sources := st.active_sources - 1 }

/-- get_available_source (source/audio.c:399-445).  `stopped i` stands for
    the backend answering AL_STOPPED to alGetSourcei(AL_SOURCE_STATE) on slot
    i.  Returns the acquired index (none for the C -1) and the possibly
    mutated engine state. -/
def get_available_source (st : AudioState) (stopped : Nat → Bool) :
    Option Nat × AudioState :=
  match findFirstIdx (fun s => !s.active) st.sources with
  | some i => (some i, st)
  | none =>
    match findReclaimIdx stopped st.sources 0 with
    | some i => (some i, releaseAt st i)
    | none =>
      let acc := stealFold st.sources 0 (1000, -1)
      if 0 ≤ acc.2 then (some acc.2.toNat, releaseAt st acc.2.toNat) else (none, st)

/-- get_available_buffer (source/audio.c:447-452): plain round-robin over the
    MAX_AUDIO_BUFFERS = 64 buffer handles, blind to liveness. -/
def get_available_buffer (st : AudioState) : Int × AudioState :=
  (st.next_buffer_index, { st with next_buffer_index := (st.next_buffer_index + 1) % 64 })

/-- Suffix of a character list from its last '.', as strrchr(filename, '.')
    finds it. -/
def lastDotSuffix : List Char → Option (List Char)
  | [] => none
  | c :: rest =>
    match lastDotSuffix rest with
    | some s => some s
    | none => if c = '.' then some (c :: rest) else none

/-- detect_audio_format (source/audio.c:479-490): a case-insensitive match of
    the filename extension against .wav / .ogg / .mp3.  The C NULL guard is
    unreachable from audio_play_sound, which rejects a missing filename
    first; the model's detector therefore takes a plain String. -/
def detect_audio_format (filename : String) : AudioFormat :=
  match lastDotSuffix filename.toList with
  | none => AudioFormat.unknown
  | some ext =>
    let e := ext.map Char.toLower
    if e = ".wav".toList then AudioFormat.wav
    else if e = ".ogg".toList then AudioFormat.ogg
    else if e = ".mp3".toList then AudioFormat.mp3
    else AudioFormat.unknown

/-- Slot contents written by the admission block of audio_play_sound
    (source/audio.c:319-336): the C field assignments plus the backend gain
    write final_volume = volume * master_volume * sfx_volume. -/
def admittedSlot (st : AudioState) (s : Source) (bi : Int) (fn : String)
    (fmt : AudioFormat) (volume : ℚ) (looping : Bool) (priority : Int) : Source :=
  { s with buffer := bi, sound_id := st.next_sound_id, active := true,
           playing := true, looping := looping, volume := volume,
           pitch := 1, format := fmt, priority := priority, filename := fn,
           gain := volume * st.master_volume * st.sfx_volume }

/-- Admission tail of audio_play_sound (source/audio.c:319-348): fill the
    slot, write the gain to the backend, take next_sound_id and bump it,
    count one more active source, and return the new id. -/
def admitVoice (st : AudioState) (si : Nat) (bi : Int) (fn : String)
    (fmt : AudioFormat) (volume : ℚ) (looping : Bool) (priority : Int) :
    AudioState × Int :=
  match st.sources[si]? with
  | none => (st, -1)
  | some s =>
    ({ st with sources := st.sources.set si (admittedSlot st s bi fn fmt volume looping priority),
               next_sound_id := st.next_sound_id + 1,
               active_sources := st.active_sources + 1 },
     st.next_sound_id)

/-- audio_play_sound (source/audio.c:266-349).  The filename is an Option
    String (none = C NULL); `stopped` is the backend oracle consumed by
    get_available_source's rule 2; `wavLoadOk` the outcome of the
    load_wav_file I/O.  load_ogg_file returns 0 unconditionally and the
    MP3/default switch arms return -1, as in the source. -/
def audio_play_sound (st : AudioState) (filename : Option String) (volume : ℚ)
    (looping : Bool) (priority : Int) (stopped : Nat → Bool) (wavLoadOk : Bool) :
    AudioState × Int :=
  if !(st.initialized && st.audio_enabled) then (st, -1)
  else
    match filename with
    | none => (st, -1)
    | some fn =>
      if fn.length = 0 then (st, -1)
      else
        match get_available_source st stopped with
        | (none, st1) => (st1, -1)
        | (some si, st1) =>
          let bs := get_available_buffer st1
          match detect_audio_format fn with
          | AudioFormat.wav =>
            if wavLoadOk then admitVoice bs.2 si bs.1 fn AudioFormat.wav volume looping priority
            else (bs.2, -1)
          | _ => (bs.2, -1)

/-- audio_play_music (source/audio.c:351-358): the music_enabled gate, then
    delegation to audio_play_sound with the call volume pre-multiplied by
    music_volume and priority fixed to 100. -/
def audio_play_music (st : AudioState) (filename : Option String) (volume : ℚ)
    (looping : Bool) (stopped : Nat → Bool) (wavLoadOk : Bool) :
    AudioState × Int :=
  if !(st.initialized && st.music_enabled) then (st, -1)
  else audio_play_sound st filename (volume * st.music_volume) looping 100 stopped wavLoadOk

/-- audio_stop_sound (source/audio.c:360-377): guard, then release the first
    active slot carrying the id (the loop breaks after one hit). -/
def audio_stop_sound (st : AudioState) (sound_id : Int) : AudioState :=
  if st.initialized = false ∨ sound_id ≤ 0 then st
  else
    match findFirstIdx (fun s => s.active && (s.sound_id == sound_id)) st.sources with
    | none => st
    | some i => releaseAt st i

/-- audio_stop_all_sounds (source/audio.c:379-395): clear every active slot
    and zero the counter. -/
def audio_stop_all_sounds (st : AudioState) : AudioState :=
  if st.initialized = false then st
  else
    { st with sources := st.sources.map (fun s => if s.active then releasedSlot s else s),
              active_sources := 0 }

/-- audio_mark_complete (source/audio.c:758-771), the completion callback the
    reaper fires.  The ghost `completed` trace logs the invocation.  The C
    scan matches on sound_id alone — it checks neither active nor id > 0 —
    and decrements active_sources on any hit. -/
def audio_mark_complete (st : AudioState) (sound_id : Int) : AudioState :=
  let st0 := { st with completed := st.completed ++ [sound_id] }
  match findFirstIdx (fun s => s.sound_id == sound_id) st0.sources with
  | none => st0
  | some i =>
    match st0.sources[i]? with
    | none => st0
    | some s =>
      { st0 with
          sources := st0.sources.set i { s with active := false, playing := false, sound_id := 0 },
          active_sources := st0.active_sources - 1 }

/-- One iteration of the cleanup_completed_sources loop (source/audio.c:
    454-475) on slot i: an active, backend-stopped, non-looping slot is
    cleared, the completion callback fires with its sound_id while that id is
    still in place, then the id is zeroed and the counter decremented. -/
def cleanupStep (stopped : Nat → Bool) (st : AudioState) (i : Nat) : AudioState :=
  match st.sources[i]? with
  | none => st
  | some s =>
    if s.active && stopped i && !s.looping then
      let st1 := { st with sources := st.sources.set i { s with active := false, playing := false } }
      let st2 := audio_mark_complete st1 s.sound_id
      let st3 :=
        match st2.sources[i]? with
        | none => st2
        | some t => { st2 with sources := st2.sources.set i { t with sound_id := 0 } }
      { st3 with active_sources := st3.active_sources - 1 }
    else st

/-- The cleanup loop over indices [0, n), run in increasing index order. -/
def cleanupLoop (stopped : Nat → Bool) : Nat → AudioState → AudioState
  | 0, st => st
  | n + 1, st => cleanupStep stopped (cleanupLoop stopped n st) n

/-- cleanup_completed_sources: one reaper tick over the whole pool. -/
def cleanup_completed_sources (stopped : Nat → Bool) (st : AudioState) : AudioState :=
  cleanupLoop stopped st.sources.length st

/-- Slot contents after setup_audio_sources (source/audio.c:225-245): all
    fields zeroed, volume and pitch 1.0, and AL_GAIN written as 1.0. -/
def initSource : Source :=
  { buffer := 0, sound_id := 0, active := false, playing := false,
    looping := false, volume := 1, pitch := 1, gain := 1,
    format := AudioFormat.unknown, priority := 0, filename := "" }

/-- initialize_openal (source/audio.c:177-216).  Each oracle Bool is one
    backend call succeeding (alcOpenDevice, alcCreateContext,
    alcMakeContextCurrent); the early returns only log and close what was
    opened — no failure is reported to the caller. -/
def initialize_openal (st : AudioState) (deviceOk ctxOk currentOk : Bool) : AudioState :=
  if deviceOk = false then st
  else
    let st1 := { st with device_open := true }
    if ctxOk = false then { st1 with device_open := false }
    else
      let st2 := { st1 with context_ready := true }
      if currentOk = false then { st2 with context_ready := false, device_open := false }
      else st2

/-- setup_audio_sources: the pool of MAX_AUDIO_SOURCES fresh slots. -/
def setup_audio_sources (st : AudioState) : AudioState :=
  { st with sources := List.replicate MAX_AUDIO_SOURCES initSource }

/-- audio_init (source/audio.c:128-175).  It calls initialize_openal, never
    inspects whether that succeeded, installs the pool and the default mixer
    settings, flags the reaper loop as running (line 159, before the thread
    is created; `threadOk` is sceKernelCreateThread succeeding) and returns 1
    on every path. -/
def audio_init (st : AudioState) (deviceOk ctxOk currentOk threadOk : Bool) :
    AudioState × Int :=
  let st1 := initialize_openal st deviceOk ctxOk currentOk
  let st2 := setup_audio_sources st1
  let st3 :=
    { st2 with initialized := true, master_volume := 1, music_volume := 7/10,
               sfx_volume := 4/5, audio_enabled := true, music_enabled := true,
               sfx_enabled := true, active_sources := 0, next_sound_id := 1,
               next_buffer_index := 0 }
  ({ st3 with audio_thread_running := true, audio_thread_started := threadOk }, 1)

/-- The zero-filled static audio_state (source/audio.c:110). -/
def zeroState : AudioState :=
  { initialized := false, device_open := false, context_ready := false,
    sources := [], next_buffer_index := 0, master_volume := 0,
    music_volume := 0, sfx_volume := 0, audio_enabled := false,
    music_enabled := false, sfx_enabled := false, active_sources := 0,
    next_sound_id := 0, audio_thread_running := false,
    audio_thread_started := false, completed := [] }

/-- Engine state right after a fully successful audio_init. -/
def initState : AudioState := (audio_init zeroState true true true true).1

/-- Modelled from the spec (section 4.5), for comparison with the code: the
    specified mixer formula clamp(call_volume, 0, 1) * master_volume *
    category_volume. -/
def effective_gain_spec (call_volume master music sfx : ℚ) (c : Category) : ℚ :=
  (max 0 (min 1 call_volume)) * master *
    (match c with
     | Category.music => music
     | Category.effect => sfx)

/-- Pool bookkeeping invariant: ids are positive and below next_sound_id on
    active slots, zero on free slots, and no two active slots share one. -/
def Inv (st : AudioState) : Prop :=
  0 < st.next_sound_id ∧
  (∀ i, ∀ h : i < st.sources.length,
     ((st.sources.get ⟨i, h⟩).active = false → (st.sources.get ⟨i, h⟩).sound_id = 0) ∧
     ((st.sources.get ⟨i, h⟩).active = true →
        0 < (st.sources.get ⟨i, h⟩).sound_id ∧
        (st.sources.get ⟨i, h⟩).sound_id < st.next_sound_id)) ∧
  (∀ i, ∀ hi : i < st.sources.length, ∀ j, ∀ hj : j < st.sources.length,
     i ≠ j → (st.sources.get ⟨i, hi⟩).active = true →
     (st.sources.get ⟨j, hj⟩).active = true →
     (st.sources.get ⟨i, hi⟩).sound_id ≠ (st.sources.get ⟨j, hj⟩).sound_id)

/-- One caller- or reaper-side operation on the engine, with the backend and
    I/O oracles it consumes baked into the step. -/
inductive AOp where
  | play (filename : Option String) (volume : ℚ) (looping : Bool)
         (priority : Int) (stopped : Nat → Bool) (wavLoadOk : Bool)
  | playMusic (filename : Option String) (volume : ℚ) (looping : Bool)
              (stopped : Nat → Bool) (wavLoadOk : Bool)
  | stop (sound_id : Int)
  | stopAll
  | tick (stopped : Nat → Bool)

/-- Apply one operation (dropping play's return value). -/
def applyOp (op : AOp) (st : AudioState) : AudioState :=
  match op with
  | AOp.play fn v lo pr sp ok => (audio_play_sound st fn v lo pr sp ok).1
  | AOp.playMusic fn v lo sp ok => (audio_play_music st fn v lo sp ok).1
  | AOp.stop id => audio_stop_sound st id
  | AOp.stopAll => audio_stop_all_sounds st
  | AOp.tick sp => cleanup_completed_sources sp st

/-- Run a sequence of operations left to right. -/
def runOps : List AOp → AudioState → AudioState
  | [], st => st
  | op :: rest, st => runOps rest (applyOp op st)


/-- Pool bookkeeping invariant, indexed-access form used by the proofs. -/
def InvP (st : AudioState) : Prop :=
  0 < st.next_sound_id ∧
  (∀ (i : Nat) (s : Source), st.sources[i]? = some s →
     (s.active = false → s.sound_id = 0) ∧
     (s.active = true → 0 < s.sound_id ∧ s.sound_id < st.next_sound_id)) ∧
  (∀ (i j : Nat) (s t : Source), i ≠ j →
     st.sources[i]? = some s → st.sources[j]? = some t →
     s.active = true → t.active = true → s.sound_id ≠ t.sound_id)

instance instDecInv (st : AudioState) : Decidable (Inv st) := by
  unfold Inv
  exact inferInstance

/-- Backend oracle reporting no slot as AL_STOPPED. -/
def spNone : Nat → Bool := fun _ => false

/-- Backend oracle reporting every slot as AL_STOPPED. -/
def spAll : Nat → Bool := fun _ => true

/-- An occupied slot with the given playback id and priority. -/
def occ (id pr : Int) : Source :=
  { initSource with active := true, playing := true, sound_id := id, priority := pr }

/-- A full 32-slot pool in which every occupant has priority 1000. -/
def stAllHigh : AudioState :=
  { initState with
      sources := (List.range MAX_AUDIO_SOURCES).map
        (fun k => { initSource with
          active := true, playing := true,
          sound_id := (k : Int) + 1, priority := 1000 }),
      active_sources := 32, next_sound_id := 33 }

/-- A 4-slot pool fully occupied with priorities [5, 1, 9, 3]. -/
def st4 : AudioState :=
  { initState with
      sources := [occ 1 5, occ 2 1, occ 3 9, occ 4 3],
      active_sources := 4, next_sound_id := 5 }

/-- A 2-slot pool fully occupied (§8 scenario of the spec). -/
def st2occ : AudioState :=
  { initState with
      sources := [occ 1 10, occ 2 1],
      active_sources := 2, next_sound_id := 3 }

/-- The freshly initialized engine with the SFX category switched off. -/
def stNoSfx : AudioState := { initState with sfx_enabled := false }

/-- Engine state after one admitted non-looping playback of a.wav. -/
def s6 : AudioState :=
  (audio_play_sound initState (some "a.wav") 1 false 10 spNone true).1

/-- Engine state after one admitted looping playback of a.wav. -/
def s7 : AudioState :=
  (audio_play_sound initState (some "a.wav") 1 true 10 spNone true).1

/-- The slot s6 holds at index 0. -/
def s6slot : Source :=
  { initSource with
      buffer := 0, sound_id := 1, active := true, playing := true,
      looping := false, volume := 1, pitch := 1, gain := 1 * 1 * (4/5),
      format := AudioFormat.wav, priority := 10, filename := "a.wav" }

/-- The slot s7 holds at index 0 (the looping variant). -/
def s7slot : Source := { s6slot with looping := true }



theorem findFirstIdx_eq_none_iff (p : Source → Bool) :
    ∀ l : List Source, findFirstIdx p l = none ↔ ∀ s ∈ l, p s = false := by
  intro l
  induction l with
  | nil => simp [findFirstIdx]
  | cons a rest ih =>
    by_cases hp : p a = true
    · simp [findFirstIdx, hp]
    · have hp' : p a = false := by simpa using hp
      simp [findFirstIdx, hp', ih]

theorem findFirstIdx_eq_some_iff (p : Source → Bool) :
    ∀ (l : List Source) (i : Nat),
      findFirstIdx p l = some i ↔
        ((∃ s, l[i]? = some s ∧ p s = true) ∧
         ∀ j, j < i → ∀ s, l[j]? = some s → p s = false) := by
  intro l
  induction l with
  | nil => intro i; simp [findFirstIdx]
  | cons a rest ih =>
    intro i
    cases i with
    | zero =>
      by_cases hp : p a = true <;> simp [findFirstIdx, hp]
    | succ n =>
      by_cases hp : p a = true
      · simp only [findFirstIdx, hp, if_true]
        constructor
        · intro h; simp at h
        · rintro ⟨_, hmin⟩
          have h0 := hmin 0 (Nat.succ_pos _) a (by simp)
          rw [hp] at h0; cases h0
      · have hp' : p a = false := by simpa using hp
        simp only [findFirstIdx, hp', Bool.false_eq_true, if_false]
        constructor
        · intro h
          rcases Option.map_eq_some'.mp h with ⟨m, hm, hmn⟩
          have hmn' : m = n := by omega
          rw [hmn'] at hm
          rcases (ih n).mp hm with ⟨hex, hmin⟩
          refine ⟨by simpa using hex, ?_⟩
          intro j hj s hs
          cases j with
          | zero =>
            simp at hs
            subst hs
            exact hp'
          | succ k =>
            exact hmin k (by omega) s (by simpa using hs)
        · rintro ⟨hex, hmin⟩
          have hrest : findFirstIdx p rest = some n := by
            refine (ih n).mpr ⟨by simpa using hex, ?_⟩
            intro j hj s hs
            exact hmin (j + 1) (by omega) s (by simpa using hs)
          simp [hrest]

theorem findReclaimIdx_eq_none_iff (stopped : Nat → Bool) :
    ∀ (l : List Source) (base : Nat),
      findReclaimIdx stopped l base = none ↔
        ∀ j s, l[j]? = some s → (s.active && stopped (base + j)) = false := by
  intro l
  induction l with
  | nil => intro base; simp [findReclaimIdx]
  | cons a rest ih =>
    intro base
    by_cases hp : (a.active && stopped base) = true
    · simp only [findReclaimIdx, hp, if_true]
      constructor
      · intro h; cases h
      · intro h
        have h0 := h 0 a (by simp)
        rw [Nat.add_zero] at h0
        rw [h0] at hp; cases hp
    · have hp' : (a.active && stopped base) = false := by simpa using hp
      simp only [findReclaimIdx, hp', Bool.false_eq_true, if_false]
      rw [ih (base + 1)]
      constructor
      · intro h j s hs
        cases j with
        | zero =>
          simp at hs; subst hs
          rw [Nat.add_zero]; exact hp'
        | succ k =>
          have hk := h k s (by simpa using hs)
          have e : base + (k + 1) = base + 1 + k := by omega
          rw [e]; exact hk
      · intro h j s hs
        have hk := h (j + 1) s (by simpa using hs)
        have e : base + 1 + j = base + (j + 1) := by omega
        rw [e]; exact hk

theorem findReclaimIdx_eq_some_iff (stopped : Nat → Bool) :
    ∀ (l : List Source) (base r : Nat),
      findReclaimIdx stopped l base = some r ↔
        ∃ j, r = base + j ∧
          (∃ s, l[j]? = some s ∧ (s.active && stopped (base + j)) = true) ∧
          ∀ k, k < j → ∀ s, l[k]? = some s → (s.active && stopped (base + k)) = false := by
  intro l
  induction l with
  | nil => intro base r; simp [findReclaimIdx]
  | cons a rest ih =>
    intro base r
    by_cases hp : (a.active && stopped base) = true
    · simp only [findReclaimIdx, hp, if_true]
      constructor
      · intro h
        have hr : r = base := by cases h; rfl
        subst hr
        exact ⟨0, by omega, ⟨a, by simp, by rw [Nat.add_zero]; exact hp⟩, by omega⟩
      · rintro ⟨j, hj, ⟨s, hs, hact⟩, hmin⟩
        cases j with
        | zero => simp [hj]
        | succ k =>
          have h0 := hmin 0 (Nat.succ_pos _) a (by simp)
          rw [Nat.add_zero] at h0
          rw [h0] at hp; cases hp
    · have hp' : (a.active && stopped base) = false := by simpa using hp
      simp only [findReclaimIdx, hp', Bool.false_eq_true, if_false]
      rw [ih (base + 1) r]
      constructor
      · rintro ⟨j, hj, ⟨s, hs, hact⟩, hmin⟩
        refine ⟨j + 1, by omega, ⟨s, by simpa using hs, ?_⟩, ?_⟩
        · have e : base + (j + 1) = base + 1 + j := by omega
          rw [e]; exact hact
        · intro k hk t ht
          cases k with
          | zero =>
            simp at ht; subst ht
            rw [Nat.add_zero]; exact hp'
          | succ m =>
            have := hmin m (by omega) t (by simpa using ht)
            have e : base + (m + 1) = base + 1 + m := by omega
            rw [e]; exact this
      · rintro ⟨j, hj, ⟨s, hs, hact⟩, hmin⟩
        cases j with
        | zero =>
          simp at hs
          subst hs
          rw [Nat.add_zero] at hact
          rw [hact] at hp'; cases hp'
        | succ m =>
          refine ⟨m, by omega, ⟨s, by simpa using hs, ?_⟩, ?_⟩
          · have e : base + 1 + m = base + (m + 1) := by omega
            rw [e]; exact hact
          · intro k hk t ht
            have := hmin (k + 1) (by omega) t (by simpa using ht)
            have e : base + 1 + k = base + (k + 1) := by omega
            rw [e]; exact this

theorem stealFold_spec :
    ∀ (l : List Source) (base : Nat) (lp li : Int),
      (∀ (j : Nat) (s : Source), l[j]? = some s → s.active = true →
         (stealFold l base (lp, li)).1 ≤ s.priority) ∧
      (stealFold l base (lp, li)).1 ≤ lp ∧
      (stealFold l base (lp, li) = (lp, li) ∨
        ∃ (j : Nat) (s : Source), l[j]? = some s ∧ s.active = true ∧
          s.priority = (stealFold l base (lp, li)).1 ∧
          (stealFold l base (lp, li)).1 < lp ∧
          (stealFold l base (lp, li)).2 = ((base + j : Nat) : Int) ∧
          ∀ (k : Nat) (t : Source), k < j → l[k]? = some t → t.active = true →
            (stealFold l base (lp, li)).1 < t.priority) := by
  intro l
  induction l with
  | nil =>
    intro base lp li
    refine ⟨by simp, by simp [stealFold], Or.inl rfl⟩
  | cons a rest ih =>
    intro base lp li
    by_cases hc : (a.active && decide (a.priority < lp)) = true
    · have hand : a.active = true ∧ a.priority < lp := by simpa using hc
      have ha : a.active = true := hand.1
      have hlt : a.priority < lp := hand.2
      have hfold : stealFold (a :: rest) base (lp, li)
          = stealFold rest (base + 1) (a.priority, (base : Int)) := by
        simp [stealFold, hc]
      rcases ih (base + 1) a.priority (base : Int) with ⟨hmin, hle, hdisj⟩
      rw [hfold]
      refine ⟨?_, le_trans hle (le_of_lt hlt), ?_⟩
      · intro j s hs hact
        cases j with
        | zero =>
          simp at hs; subst hs
          exact hle
        | succ k =>
          exact hmin k s (by simpa using hs) hact
      · rcases hdisj with heq | ⟨j, s, hs, hact, hpri, hplt, hidx, hmindex⟩
        · refine Or.inr ⟨0, a, by simp, ha, ?_, ?_, ?_, ?_⟩
          · rw [heq]
          · rw [heq]; exact hlt
          · rw [heq]; omega
          · intro k t hk ht hactt; omega
        · refine Or.inr ⟨j + 1, s, by simpa using hs, hact, hpri, lt_trans hplt hlt, ?_, ?_⟩
          · rw [hidx]
            have e : base + 1 + j = base + (j + 1) := by omega
            rw [e]
          · intro k t hk ht hactt
            cases k with
            | zero =>
              simp at ht; subst ht
              exact hplt
            | succ m =>
              exact hmindex m t (by omega) (by simpa using ht) hactt
    · have hfold : stealFold (a :: rest) base (lp, li)
          = stealFold rest (base + 1) (lp, li) := by
        simp only [stealFold, hc, Bool.false_eq_true, if_false]
      have hna : a.active = true → lp ≤ a.priority := by
        intro ha
        by_contra hlt
        push_neg at hlt
        exact hc (by simp [ha, hlt])
      rcases ih (base + 1) lp li with ⟨hmin, hle, hdisj⟩
      rw [hfold]
      refine ⟨?_, hle, ?_⟩
      · intro j s hs hact
        cases j with
        | zero =>
          simp at hs; subst hs
          exact le_trans hle (hna hact)
        | succ k =>
          exact hmin k s (by simpa using hs) hact
      · rcases hdisj with heq | ⟨j, s, hs, hact, hpri, hplt, hidx, hmindex⟩
        · exact Or.inl heq
        · refine Or.inr ⟨j + 1, s, by simpa using hs, hact, hpri, hplt, ?_, ?_⟩
          · rw [hidx]
            have e : base + 1 + j = base + (j + 1) := by omega
            rw [e]
          · intro k t hk ht hactt
            cases k with
            | zero =>
              simp at ht; subst ht
              exact lt_of_lt_of_le hplt (hna hactt)
            | succ m =>
              exact hmindex m t (by omega) (by simpa using ht) hactt

theorem releaseAt_spec (st : AudioState) (i : Nat) (s : Source)
    (h : st.sources[i]? = some s) :
    releaseAt st i = { st with sources := st.sources.set i (releasedSlot s),
                               active_sources := st.active_sources - 1 } := by
  simp [releaseAt, h]

theorem releaseAt_oob (st : AudioState) (i : Nat) (h : st.sources[i]? = none) :
    releaseAt st i = st := by
  simp [releaseAt, h]

theorem releaseAt_proj (st : AudioState) (i : Nat) :
    (releaseAt st i).next_sound_id = st.next_sound_id ∧
    (releaseAt st i).initialized = st.initialized ∧
    (releaseAt st i).audio_enabled = st.audio_enabled ∧
    (releaseAt st i).music_enabled = st.music_enabled ∧
    (releaseAt st i).master_volume = st.master_volume ∧
    (releaseAt st i).sfx_volume = st.sfx_volume ∧
    (releaseAt st i).music_volume = st.music_volume ∧
    (releaseAt st i).sources.length = st.sources.length ∧
    (releaseAt st i).completed = st.completed := by
  unfold releaseAt
  rcases h : st.sources[i]? with _ | s <;> simp [h]

theorem releaseAt_get_ne (st : AudioState) (i j : Nat) (hne : i ≠ j) :
    (releaseAt st i).sources[j]? = st.sources[j]? := by
  unfold releaseAt
  rcases h : st.sources[i]? with _ | s <;> simp [h, List.getElem?_set_ne hne]

theorem releaseAt_get_self (st : AudioState) (i : Nat) (s : Source)
    (h : st.sources[i]? = some s) :
    (releaseAt st i).sources[i]? = some (releasedSlot s) := by
  rcases List.getElem?_eq_some.mp h with ⟨hlt, _⟩
  simp [releaseAt, h, List.getElem?_set_self hlt]

theorem get_available_source_free (st : AudioState) (sp : Nat → Bool) (i : Nat)
    (h : findFirstIdx (fun s => !s.active) st.sources = some i) :
    get_available_source st sp = (some i, st) := by
  simp [get_available_source, h]

theorem get_available_source_reclaim (st : AudioState) (sp : Nat → Bool) (i : Nat)
    (hfree : findFirstIdx (fun s => !s.active) st.sources = none)
    (h : findReclaimIdx sp st.sources 0 = some i) :
    get_available_source st sp = (some i, releaseAt st i) := by
  simp [get_available_source, hfree, h]

theorem get_available_source_steal (st : AudioState) (sp : Nat → Bool)
    (hfree : findFirstIdx (fun s => !s.active) st.sources = none)
    (hrec : findReclaimIdx sp st.sources 0 = none) :
    get_available_source st sp =
      (if 0 ≤ (stealFold st.sources 0 (1000, -1)).2
       then (some (stealFold st.sources 0 (1000, -1)).2.toNat,
             releaseAt st (stealFold st.sources 0 (1000, -1)).2.toNat)
       else (none, st)) := by
  simp [get_available_source, hfree, hrec]

theorem get_available_source_cases (st : AudioState) (sp : Nat → Bool) :
    (get_available_source st sp).2 = st ∨
    ∃ i : Nat, (get_available_source st sp).2 = releaseAt st i := by
  unfold get_available_source
  rcases h1 : findFirstIdx (fun s => !s.active) st.sources with _ | i
  · rcases h2 : findReclaimIdx sp st.sources 0 with _ | i
    · by_cases h3 : 0 ≤ (stealFold st.sources 0 (1000, -1)).2
      · right
        exact ⟨(stealFold st.sources 0 (1000, -1)).2.toNat, by simp [h3]⟩
      · left; simp [h3]
    · right; exact ⟨i, by simp⟩
  · left; rfl

theorem Inv_iff_InvP (st : AudioState) : Inv st ↔ InvP st := by
  constructor
  · rintro ⟨h1, h2, h3⟩
    refine ⟨h1, ?_, ?_⟩
    · intro i s hs
      rcases List.getElem?_eq_some.mp hs with ⟨hlt, hget⟩
      have := h2 i hlt
      rw [List.get_eq_getElem] at this
      rw [hget] at this
      exact this
    · intro i j s t hne hs ht hsa hta
      rcases List.getElem?_eq_some.mp hs with ⟨hi, hgi⟩
      rcases List.getElem?_eq_some.mp ht with ⟨hj, hgj⟩
      have := h3 i hi j hj hne
      rw [List.get_eq_getElem, List.get_eq_getElem, hgi, hgj] at this
      exact this hsa hta
  · rintro ⟨h1, h2, h3⟩
    refine ⟨h1, ?_, ?_⟩
    · intro i hlt
      have hs : st.sources[i]? = some (st.sources.get ⟨i, hlt⟩) := by
        rw [List.get_eq_getElem]
        exact List.getElem?_eq_getElem hlt
      exact h2 i _ hs
    · intro i hi j hj hne
      have hs : st.sources[i]? = some (st.sources.get ⟨i, hi⟩) := by
        rw [List.get_eq_getElem]
        exact List.getElem?_eq_getElem hi
      have ht : st.sources[j]? = some (st.sources.get ⟨j, hj⟩) := by
        rw [List.get_eq_getElem]
        exact List.getElem?_eq_getElem hj
      exact h3 i j _ _ hne hs ht

theorem InvP_set_free (st : AudioState) (i : Nat) (u : Source)
    (hu1 : u.active = false) (hu2 : u.sound_id = 0) (h : InvP st)
    (a : Int) (c : List Int) :
    InvP { st with sources := st.sources.set i u, active_sources := a,
                   completed := c } := by
  rcases h with ⟨h1, h2, h3⟩
  refine ⟨h1, ?_, ?_⟩
  · intro k t ht
    dsimp only at ht ⊢
    by_cases hk : i = k
    · subst hk
      rcases List.getElem?_eq_some.mp ht with ⟨hlt, _⟩
      rw [List.length_set] at hlt
      rw [List.getElem?_set_self hlt] at ht
      injection ht with ht
      subst ht
      exact ⟨fun _ => hu2, fun hact => absurd hact (by simp [hu1])⟩
    · rw [List.getElem?_set_ne hk] at ht
      exact h2 k t ht
  · intro k l' s' t' hne hs ht hsa hta
    dsimp only at hs ht
    by_cases hk : i = k
    · subst hk
      rcases List.getElem?_eq_some.mp hs with ⟨hlt, _⟩
      rw [List.length_set] at hlt
      rw [List.getElem?_set_self hlt] at hs
      injection hs with hs
      subst hs
      rw [hu1] at hsa; cases hsa
    · by_cases hl : i = l'
      · subst hl
        rcases List.getElem?_eq_some.mp ht with ⟨hlt, _⟩
        rw [List.length_set] at hlt
        rw [List.getElem?_set_self hlt] at ht
        injection ht with ht
        subst ht
        rw [hu1] at hta; cases hta
      · rw [List.getElem?_set_ne hk] at hs
        rw [List.getElem?_set_ne hl] at ht
        exact h3 k l' s' t' hne hs ht hsa hta

theorem InvP_releaseAt (st : AudioState) (i : Nat) (h : InvP st) :
    InvP (releaseAt st i) := by
  rcases hh : st.sources[i]? with _ | s
  · rw [releaseAt_oob st i hh]; exact h
  · rw [releaseAt_spec st i s hh]
    exact InvP_set_free st i (releasedSlot s) rfl rfl h
      (st.active_sources - 1) st.completed

theorem InvP_gas (st : AudioState) (sp : Nat → Bool) (h : InvP st) :
    InvP (get_available_source st sp).2 := by
  rcases get_available_source_cases st sp with hc | ⟨i, hc⟩
  · rw [hc]; exact h
  · rw [hc]; exact InvP_releaseAt st i h

theorem gas_next_sound_id (st : AudioState) (sp : Nat → Bool) :
    (get_available_source st sp).2.next_sound_id = st.next_sound_id := by
  rcases get_available_source_cases st sp with hc | ⟨i, hc⟩
  · rw [hc]
  · rw [hc]; exact (releaseAt_proj st i).1

theorem InvP_admit (st : AudioState) (si : Nat) (u : Source)
    (hu1 : u.active = true) (hu2 : u.sound_id = st.next_sound_id)
    (h : InvP st) (a : Int) :
    InvP { st with sources := st.sources.set si u,
                   next_sound_id := st.next_sound_id + 1,
                   active_sources := a } := by
  rcases h with ⟨h1, h2, h3⟩
  refine ⟨by dsimp only; omega, ?_, ?_⟩
  · intro k t ht
    dsimp only at ht ⊢
    by_cases hk : si = k
    · subst hk
      rcases List.getElem?_eq_some.mp ht with ⟨hlt, _⟩
      rw [List.length_set] at hlt
      rw [List.getElem?_set_self hlt] at ht
      injection ht with ht
      subst ht
      refine ⟨fun hf => ?_, fun _ => ⟨by omega, by omega⟩⟩
      · rw [hu1] at hf; cases hf
    · rw [List.getElem?_set_ne hk] at ht
      rcases h2 k t ht with ⟨hf, hb⟩
      refine ⟨hf, fun hact => ⟨(hb hact).1, ?_⟩⟩
      have := (hb hact).2
      omega
  · intro k l' s' t' hne hs ht hsa hta
    dsimp only at hs ht ⊢
    by_cases hk : si = k
    · subst hk
      rcases List.getElem?_eq_some.mp hs with ⟨hlt, _⟩
      rw [List.length_set] at hlt
      rw [List.getElem?_set_self hlt] at hs
      injection hs with hs
      subst hs
      rw [List.getElem?_set_ne (by omega : si ≠ l')] at ht
      have := (h2 l' t' ht).2 hta
      omega
    · by_cases hl : si = l'
      · subst hl
        rcases List.getElem?_eq_some.mp ht with ⟨hlt, _⟩
        rw [List.length_set] at hlt
        rw [List.getElem?_set_self hlt] at ht
        injection ht with ht
        subst ht
        rw [List.getElem?_set_ne hk] at hs
        have := (h2 k s' hs).2 hsa
        omega
      · rw [List.getElem?_set_ne hk] at hs
        rw [List.getElem?_set_ne hl] at ht
        exact h3 k l' s' t' hne hs ht hsa hta

theorem gas_master_volume (st : AudioState) (sp : Nat → Bool) :
    (get_available_source st sp).2.master_volume = st.master_volume := by
  rcases get_available_source_cases st sp with hc | ⟨i, hc⟩
  · rw [hc]
  · rw [hc]; exact (releaseAt_proj st i).2.2.2.2.1

theorem gas_sfx_volume (st : AudioState) (sp : Nat → Bool) :
    (get_available_source st sp).2.sfx_volume = st.sfx_volume := by
  rcases get_available_source_cases st sp with hc | ⟨i, hc⟩
  · rw [hc]
  · rw [hc]; exact (releaseAt_proj st i).2.2.2.2.2.1

theorem admitVoice_spec (st : AudioState) (si : Nat) (bi : Int) (fn : String)
    (fmt : AudioFormat) (v : ℚ) (lo : Bool) (pr : Int) (s : Source)
    (h : st.sources[si]? = some s) :
    admitVoice st si bi fn fmt v lo pr =
      ({ st with
          sources := st.sources.set si (admittedSlot st s bi fn fmt v lo pr),
          next_sound_id := st.next_sound_id + 1,
          active_sources := st.active_sources + 1 },
       st.next_sound_id) := by
  simp [admitVoice, h]

theorem admitVoice_oob (st : AudioState) (si : Nat) (bi : Int) (fn : String)
    (fmt : AudioFormat) (v : ℚ) (lo : Bool) (pr : Int)
    (h : st.sources[si]? = none) :
    admitVoice st si bi fn fmt v lo pr = (st, -1) := by
  simp [admitVoice, h]

theorem InvP_buffer (st : AudioState) (n : Int) (h : InvP st) :
    InvP { st with next_buffer_index := n } := h

theorem InvP_admitVoice (st : AudioState) (si : Nat) (bi : Int) (fn : String)
    (fmt : AudioFormat) (v : ℚ) (lo : Bool) (pr : Int) (h : InvP st) :
    InvP (admitVoice st si bi fn fmt v lo pr).1 := by
  rcases hh : st.sources[si]? with _ | s
  · rw [admitVoice_oob st si bi fn fmt v lo pr hh]; exact h
  · rw [admitVoice_spec st si bi fn fmt v lo pr s hh]
    apply InvP_admit st si _ _ _ h
    · rfl
    · rfl

theorem InvP_play (st : AudioState) (fn : Option String) (v : ℚ) (lo : Bool)
    (pr : Int) (sp : Nat → Bool) (ok : Bool) (h : InvP st) :
    InvP (audio_play_sound st fn v lo pr sp ok).1 := by
  unfold audio_play_sound
  by_cases h0 : (!(st.initialized && st.audio_enabled)) = true
  · simp only [h0, if_true]; exact h
  · have h0' : (!(st.initialized && st.audio_enabled)) = false := by simpa using h0
    simp only [h0', Bool.false_eq_true, if_false]
    rcases fn with _ | name
    · exact h
    · by_cases hz : name.length = 0
      · simp only [hz, if_pos rfl]; exact h
      · simp only [if_neg hz]
        have h1 : InvP (get_available_source st sp).2 := InvP_gas st sp h
        rcases hg : get_available_source st sp with ⟨o, st1⟩
        rw [hg] at h1
        rcases o with _ | si
        · exact h1
        · rcases hf : detect_audio_format name with _ | _ | _ | _ | _
          all_goals simp only []
          · exact InvP_buffer st1 _ h1
          · by_cases hok : ok = true
            · simp only [hok, if_true]
              exact InvP_admitVoice _ si _ name AudioFormat.wav v lo pr (InvP_buffer st1 _ h1)
            · have hok' : ok = false := by simpa using hok
              simp only [hok', Bool.false_eq_true, if_false]
              exact InvP_buffer st1 _ h1
          · exact InvP_buffer st1 _ h1
          · exact InvP_buffer st1 _ h1
          · exact InvP_buffer st1 _ h1

theorem audio_mark_complete_hit (st : AudioState) (id : Int) (i : Nat) (s : Source)
    (hs : st.sources[i]? = some s) (hid : s.sound_id = id)
    (hfirst : ∀ (k : Nat) (t : Source), k < i → st.sources[k]? = some t → t.sound_id ≠ id) :
    audio_mark_complete st id =
      { st with
          sources := st.sources.set i ({ s with active := false, playing := false, sound_id := 0 }),
          active_sources := st.active_sources - 1,
          completed := st.completed ++ [id] } := by
  have hfind : findFirstIdx (fun t => t.sound_id == id) st.sources = some i := by
    rw [findFirstIdx_eq_some_iff]
    refine ⟨⟨s, hs, by rw [beq_iff_eq]; exact hid⟩, ?_⟩
    intro j hj t ht
    rw [beq_eq_false_iff_ne]
    exact hfirst j t hj ht
  unfold audio_mark_complete
  dsimp only
  rw [hfind]
  dsimp only
  rw [hs]

theorem cleanupStep_skip (sp : Nat → Bool) (st : AudioState) (i : Nat)
    (h : ∀ s : Source, st.sources[i]? = some s → (s.active && sp i && !s.looping) = false) :
    cleanupStep sp st i = st := by
  unfold cleanupStep
  rcases hs : st.sources[i]? with _ | s
  · rfl
  · dsimp only
    rw [h s hs]
    simp

theorem cleanupStep_reaped (sp : Nat → Bool) (st : AudioState) (i : Nat) (s : Source)
    (hInv : InvP st) (hs : st.sources[i]? = some s) (ha : s.active = true)
    (hsp : sp i = true) (hl : s.looping = false) :
    cleanupStep sp st i =
      { st with
          sources := st.sources.set i (releasedSlot s),
          active_sources := st.active_sources - 1 - 1,
          completed := st.completed ++ [s.sound_id] } := by
  have hlt : i < st.sources.length := (List.getElem?_eq_some.mp hs).1
  have hcond : (s.active && sp i && !s.looping) = true := by simp [ha, hsp, hl]
  have hs1 : (st.sources.set i ({ s with active := false, playing := false }))[i]? =
      some ({ s with active := false, playing := false }) :=
    List.getElem?_set_self hlt
  have hfirst : ∀ (k : Nat) (t : Source), k < i →
      (st.sources.set i ({ s with active := false, playing := false }))[k]? = some t →
      t.sound_id ≠ s.sound_id := by
    intro k t hk ht
    rw [List.getElem?_set_ne (by omega : i ≠ k)] at ht
    rcases hInv with ⟨h1, h2, h3⟩
    by_cases hta : t.active = true
    · exact h3 k i t s (by omega) ht hs hta ha
    · have ht0 : t.sound_id = 0 := (h2 k t ht).1 (by simpa using hta)
      have hpos : 0 < s.sound_id := ((h2 i s hs).2 ha).1
      omega
  unfold cleanupStep
  rw [hs]
  dsimp only
  rw [hcond]
  simp only [if_true]
  rw [audio_mark_complete_hit
        ({ st with sources := st.sources.set i ({ s with active := false, playing := false }) })
        s.sound_id i ({ s with active := false, playing := false }) hs1 rfl hfirst]
  dsimp only
  rw [List.set_set]
  have h2i : (st.sources.set i ({ s with active := false, playing := false, sound_id := 0 }))[i]? =
      some ({ s with active := false, playing := false, sound_id := 0 }) :=
    List.getElem?_set_self hlt
  rw [h2i]
  dsimp only
  rw [List.set_set]
  rfl

theorem cleanupStep_cases (sp : Nat → Bool) (st : AudioState) (i : Nat) (hInv : InvP st) :
    cleanupStep sp st i = st ∨
    ∃ s : Source, st.sources[i]? = some s ∧ s.active = true ∧ s.looping = false ∧
      cleanupStep sp st i =
        { st with
            sources := st.sources.set i (releasedSlot s),
            active_sources := st.active_sources - 1 - 1,
            completed := st.completed ++ [s.sound_id] } := by
  rcases hs : st.sources[i]? with _ | s
  · left
    exact cleanupStep_skip sp st i (fun t ht => by rw [hs] at ht; cases ht)
  · by_cases hcond : (s.active && sp i && !s.looping) = true
    · right
      have hc := hcond
      simp only [Bool.and_eq_true, Bool.not_eq_true'] at hc
      exact ⟨s, rfl, hc.1.1, hc.2,
        cleanupStep_reaped sp st i s hInv hs hc.1.1 hc.1.2 hc.2⟩
    · left
      apply cleanupStep_skip
      intro t ht
      rw [hs] at ht
      injection ht with ht
      subst ht
      simpa using hcond

theorem InvP_cleanupStep (sp : Nat → Bool) (st : AudioState) (i : Nat) (h : InvP st) :
    InvP (cleanupStep sp st i) := by
  rcases cleanupStep_cases sp st i h with hc | ⟨s, _, _, _, hc⟩
  · rw [hc]; exact h
  · rw [hc]
    exact InvP_set_free st i (releasedSlot s) rfl rfl h _ _

theorem InvP_cleanupLoop (sp : Nat → Bool) :
    ∀ (n : Nat) (st : AudioState), InvP st → InvP (cleanupLoop sp n st) := by
  intro n
  induction n with
  | zero => intro st h; exact h
  | succ m ih =>
    intro st h
    exact InvP_cleanupStep sp (cleanupLoop sp m st) m (ih st h)

theorem InvP_tick (sp : Nat → Bool) (st : AudioState) (h : InvP st) :
    InvP (cleanup_completed_sources sp st) :=
  InvP_cleanupLoop sp st.sources.length st h

theorem InvP_stop (st : AudioState) (id : Int) (h : InvP st) :
    InvP (audio_stop_sound st id) := by
  unfold audio_stop_sound
  by_cases hg : st.initialized = false ∨ id ≤ 0
  · rw [if_pos hg]; exact h
  · rw [if_neg hg]
    rcases hf : findFirstIdx (fun s => s.active && (s.sound_id == id)) st.sources with _ | i
    · exact h
    · exact InvP_releaseAt st i h

theorem stopAll_inactive (st : AudioState) (k : Nat) (t : Source)
    (ht : (st.sources.map (fun s => if s.active then releasedSlot s else s))[k]? = some t) :
    t.active = false ∧ (t.sound_id = 0 ∨ st.sources[k]? = some t) := by
  rw [List.getElem?_map] at ht
  rcases ho : st.sources[k]? with _ | u
  · rw [ho] at ht; cases ht
  · rw [ho] at ht
    injection ht with ht
    dsimp only at ht
    by_cases hu : u.active = true
    · rw [if_pos hu] at ht
      subst ht
      exact ⟨rfl, Or.inl rfl⟩
    · have hu' : u.active = false := by simpa using hu
      rw [if_neg hu] at ht
      subst ht
      exact ⟨hu', Or.inr rfl⟩

theorem InvP_stopAll (st : AudioState) (h : InvP st) :
    InvP (audio_stop_all_sounds st) := by
  unfold audio_stop_all_sounds
  by_cases hg : st.initialized = false
  · rw [if_pos hg]; exact h
  · rw [if_neg hg]
    rcases h with ⟨h1, h2, h3⟩
    refine ⟨h1, ?_, ?_⟩
    · intro k t ht
      dsimp only at ht
      rcases stopAll_inactive st k t ht with ⟨hta, hid⟩
      refine ⟨fun _ => ?_, fun hact => ?_⟩
      · rcases hid with h0 | ho
        · exact h0
        · exact (h2 k t ho).1 hta
      · rw [hta] at hact; cases hact
    · intro k l' s' t' _ hs ht hsa _
      dsimp only at hs
      rcases stopAll_inactive st k s' hs with ⟨hta, _⟩
      rw [hta] at hsa; cases hsa

theorem mark_next_sound_id (st : AudioState) (id : Int) :
    (audio_mark_complete st id).next_sound_id = st.next_sound_id := by
  unfold audio_mark_complete
  dsimp only
  rcases hf : findFirstIdx (fun s => s.sound_id == id) st.sources with _ | i
  · rfl
  · dsimp only
    rcases hg : st.sources[i]? with _ | s
    · rfl
    · rfl

theorem cleanupStep_next_sound_id (sp : Nat → Bool) (st : AudioState) (i : Nat) :
    (cleanupStep sp st i).next_sound_id = st.next_sound_id := by
  unfold cleanupStep
  rcases hs : st.sources[i]? with _ | s
  · rfl
  · dsimp only
    by_cases hcond : (s.active && sp i && !s.looping) = true
    · rw [if_pos hcond]
      dsimp only
      rcases hm : (audio_mark_complete
          ({ st with sources := st.sources.set i ({ s with active := false, playing := false }) })
          s.sound_id).sources[i]? with _ | t
      · dsimp only
        exact mark_next_sound_id _ s.sound_id
      · dsimp only
        exact mark_next_sound_id _ s.sound_id
    · rw [if_neg hcond]

theorem play_next_mono (st : AudioState) (fn : Option String) (v : ℚ) (lo : Bool)
    (pr : Int) (sp : Nat → Bool) (ok : Bool) :
    st.next_sound_id ≤ (audio_play_sound st fn v lo pr sp ok).1.next_sound_id := by
  unfold audio_play_sound
  by_cases h0 : (!(st.initialized && st.audio_enabled)) = true
  · rw [if_pos h0]
  · rw [if_neg h0]
    rcases fn with _ | name
    · exact le_refl _
    · dsimp only
      by_cases hz : name.length = 0
      · rw [if_pos hz]
      · rw [if_neg hz]
        have hnext := gas_next_sound_id st sp
        rcases hg : get_available_source st sp with ⟨o, st1⟩
        rw [hg] at hnext
        dsimp only at hnext
        rcases o with _ | si
        · dsimp only; omega
        · simp only [get_available_buffer]
          rcases hf : detect_audio_format name with _ | _ | _ | _ | _
          · dsimp only; omega
          · by_cases hok : ok = true
            · rw [if_pos hok]
              rcases hA : ({ st1 with next_buffer_index := (st1.next_buffer_index + 1) % 64 } :
                  AudioState).sources[si]? with _ | s
              · rw [admitVoice_oob _ _ _ _ _ _ _ _ hA]
                dsimp only; omega
              · rw [admitVoice_spec _ _ _ _ _ _ _ _ s hA]
                dsimp only; omega
            · rw [if_neg hok]
              dsimp only; omega
          · dsimp only; omega
          · dsimp only; omega
          · dsimp only; omega

theorem music_next_mono (st : AudioState) (fn : Option String) (v : ℚ) (lo : Bool)
    (sp : Nat → Bool) (ok : Bool) :
    st.next_sound_id ≤ (audio_play_music st fn v lo sp ok).1.next_sound_id := by
  unfold audio_play_music
  by_cases h0 : (!(st.initialized && st.music_enabled)) = true
  · rw [if_pos h0]
  · rw [if_neg h0]
    exact play_next_mono st fn (v * st.music_volume) lo 100 sp ok

theorem stop_next_sound_id (st : AudioState) (id : Int) :
    (audio_stop_sound st id).next_sound_id = st.next_sound_id := by
  unfold audio_stop_sound
  by_cases hg : st.initialized = false ∨ id ≤ 0
  · rw [if_pos hg]
  · rw [if_neg hg]
    rcases hf : findFirstIdx (fun s => s.active && (s.sound_id == id)) st.sources with _ | i
    · rfl
    · exact (releaseAt_proj st i).1

theorem stopAll_next_sound_id (st : AudioState) :
    (audio_stop_all_sounds st).next_sound_id = st.next_sound_id := by
  unfold audio_stop_all_sounds
  by_cases hg : st.initialized = false
  · rw [if_pos hg]
  · rw [if_neg hg]

theorem cleanupLoop_next_sound_id (sp : Nat → Bool) :
    ∀ (n : Nat) (st : AudioState),
      (cleanupLoop sp n st).next_sound_id = st.next_sound_id := by
  intro n
  induction n with
  | zero => intro st; rfl
  | succ m ih =>
    intro st
    rw [cleanupLoop, cleanupStep_next_sound_id, ih]

theorem tick_next_sound_id (sp : Nat → Bool) (st : AudioState) :
    (cleanup_completed_sources sp st).next_sound_id = st.next_sound_id :=
  cleanupLoop_next_sound_id sp st.sources.length st

theorem applyOp_next_mono (op : AOp) (st : AudioState) :
    st.next_sound_id ≤ (applyOp op st).next_sound_id := by
  cases op with
  | play fn v lo pr sp ok => exact play_next_mono st fn v lo pr sp ok
  | playMusic fn v lo sp ok => exact music_next_mono st fn v lo sp ok
  | stop id => rw [applyOp, stop_next_sound_id]
  | stopAll => rw [applyOp, stopAll_next_sound_id]
  | tick sp => rw [applyOp, tick_next_sound_id]

theorem InvP_music (st : AudioState) (fn : Option String) (v : ℚ) (lo : Bool)
    (sp : Nat → Bool) (ok : Bool) (h : InvP st) :
    InvP (audio_play_music st fn v lo sp ok).1 := by
  unfold audio_play_music
  by_cases h0 : (!(st.initialized && st.music_enabled)) = true
  · rw [if_pos h0]; exact h
  · rw [if_neg h0]
    exact InvP_play st fn (v * st.music_volume) lo 100 sp ok h

theorem InvP_applyOp (op : AOp) (st : AudioState) (h : InvP st) :
    InvP (applyOp op st) := by
  cases op with
  | play fn v lo pr sp ok => exact InvP_play st fn v lo pr sp ok h
  | playMusic fn v lo sp ok => exact InvP_music st fn v lo sp ok h
  | stop id => exact InvP_stop st id h
  | stopAll => exact InvP_stopAll st h
  | tick sp => exact InvP_tick sp st h

theorem InvP_runOps : ∀ (ops : List AOp) (st : AudioState), InvP st →
    InvP (runOps ops st) := by
  intro ops
  induction ops with
  | nil => intro st h; exact h
  | cons op rest ih =>
    intro st h
    exact ih (applyOp op st) (InvP_applyOp op st h)

theorem play_success_spec (st : AudioState) (fn : Option String) (v : ℚ) (lo : Bool)
    (pr : Int) (sp : Nat → Bool) (ok : Bool)
    (hpos : 0 < (audio_play_sound st fn v lo pr sp ok).2) :
    (audio_play_sound st fn v lo pr sp ok).2 = st.next_sound_id ∧
    (audio_play_sound st fn v lo pr sp ok).1.next_sound_id = st.next_sound_id + 1 ∧
    ∃ (si : Nat) (s' : Source),
      (audio_play_sound st fn v lo pr sp ok).1.sources[si]? = some s' ∧
      (get_available_source st sp).1 = some si ∧
      s'.sound_id = st.next_sound_id ∧ s'.active = true ∧ s'.looping = lo ∧
      s'.priority = pr ∧ s'.gain = v * st.master_volume * st.sfx_volume := by
  have hnext := gas_next_sound_id st sp
  have hmas := gas_master_volume st sp
  have hsfx := gas_sfx_volume st sp
  unfold audio_play_sound at hpos ⊢
  by_cases h0 : (!(st.initialized && st.audio_enabled)) = true
  · rw [if_pos h0] at hpos; exact absurd hpos (by norm_num)
  · rw [if_neg h0] at hpos ⊢
    rcases fn with _ | name
    · exact absurd hpos (by norm_num)
    · dsimp only at hpos ⊢
      by_cases hz : name.length = 0
      · rw [if_pos hz] at hpos; exact absurd hpos (by norm_num)
      · rw [if_neg hz] at hpos ⊢
        rcases hg : get_available_source st sp with ⟨o, st1⟩
        rw [hg] at hpos hnext hmas hsfx
        dsimp only at hpos hnext hmas hsfx
        rcases o with _ | si
        · dsimp only at hpos; exact absurd hpos (by norm_num)
        · simp only [get_available_buffer] at hpos ⊢
          rcases hf : detect_audio_format name with _ | _ | _ | _ | _
          · rw [hf] at hpos
            dsimp only at hpos; exact absurd hpos (by norm_num)
          · rw [hf] at hpos
            by_cases hok : ok = true
            · rw [if_pos hok] at hpos ⊢
              rcases hA : ({ st1 with next_buffer_index := (st1.next_buffer_index + 1) % 64 } :
                  AudioState).sources[si]? with _ | s
              · rw [admitVoice_oob _ _ _ _ _ _ _ _ hA] at hpos
                exact absurd hpos (by norm_num)
              · have hlt0 : si < ({ st1 with
                    next_buffer_index := (st1.next_buffer_index + 1) % 64 } :
                    AudioState).sources.length := (List.getElem?_eq_some.mp hA).1
                have hlt : si < st1.sources.length := hlt0
                rw [admitVoice_spec _ _ _ _ _ _ _ _ s hA] at hpos ⊢
                dsimp only at hpos ⊢
                refine ⟨hnext, by rw [hnext], si, admittedSlot
                    ({ st1 with next_buffer_index := (st1.next_buffer_index + 1) % 64 })
                    s st1.next_buffer_index name AudioFormat.wav v lo pr, ?_, rfl, ?_, rfl, rfl, rfl, ?_⟩
                · exact List.getElem?_set_self hlt
                · simp only [admittedSlot]
                  exact hnext
                · simp only [admittedSlot]
                  rw [hmas, hsfx]
            · rw [if_neg hok] at hpos
              dsimp only at hpos; exact absurd hpos (by norm_num)
          · rw [hf] at hpos
            dsimp only at hpos; exact absurd hpos (by norm_num)
          · rw [hf] at hpos
            dsimp only at hpos; exact absurd hpos (by norm_num)
          · rw [hf] at hpos
            dsimp only at hpos; exact absurd hpos (by norm_num)

theorem gas_rule1_first_free (st : AudioState) (sp : Nat → Bool) (i : Nat) (s : Source)
    (hs : st.sources[i]? = some s) (hfree : s.active = false)
    (hbefore : ∀ (k : Nat) (t : Source), k < i → st.sources[k]? = some t → t.active = true) :
    get_available_source st sp = (some i, st) := by
  apply get_available_source_free
  rw [findFirstIdx_eq_some_iff]
  refine ⟨⟨s, hs, by simp [hfree]⟩, ?_⟩
  intro j hj t ht
  simp [hbefore j t hj ht]

theorem gas_rule2_first_stopped (st : AudioState) (sp : Nat → Bool) (i : Nat)
    (hall : ∀ t ∈ st.sources, t.active = true)
    (hlt : i < st.sources.length) (hsp : sp i = true)
    (hbefore : ∀ k : Nat, k < i → sp k = false) :
    get_available_source st sp = (some i, releaseAt st i) := by
  have hfree : findFirstIdx (fun s => !s.active) st.sources = none := by
    rw [findFirstIdx_eq_none_iff]
    intro s hsmem
    simp [hall s hsmem]
  apply get_available_source_reclaim st sp i hfree
  rw [findReclaimIdx_eq_some_iff]
  refine ⟨i, by omega, ?_, ?_⟩
  · have hsome : ∃ s : Source, st.sources[i]? = some s := by
      rcases ho : st.sources[i]? with _ | s
      · rw [List.getElem?_eq_none_iff] at ho; omega
      · exact ⟨s, rfl⟩
    rcases hsome with ⟨s, hs⟩
    refine ⟨s, hs, ?_⟩
    have := hall s (List.getElem?_mem hs)
    simp [this, hsp]
  · intro k hk t _
    simp [hbefore k hk]

theorem gas_rule3_spec (st : AudioState) (sp : Nat → Bool)
    (hall : ∀ s ∈ st.sources, s.active = true)
    (hstop : ∀ (j : Nat) (s : Source), st.sources[j]? = some s → sp j = false) :
    ((∃ s ∈ st.sources, s.priority < 1000) →
       ∃ (i : Nat) (s : Source), st.sources[i]? = some s ∧
         get_available_source st sp = (some i, releaseAt st i) ∧
         (∀ (k : Nat) (t : Source), st.sources[k]? = some t → s.priority ≤ t.priority) ∧
         (∀ (k : Nat) (t : Source), k < i → st.sources[k]? = some t → s.priority < t.priority)) ∧
    ((∀ s ∈ st.sources, 1000 ≤ s.priority) →
       get_available_source st sp = (none, st)) := by
  have hfree : findFirstIdx (fun s => !s.active) st.sources = none := by
    rw [findFirstIdx_eq_none_iff]
    intro s hsmem
    simp [hall s hsmem]
  have hrec : findReclaimIdx sp st.sources 0 = none := by
    rw [findReclaimIdx_eq_none_iff]
    intro j s hs
    rw [Nat.zero_add]
    simp [hstop j s hs]
  have hsteal := get_available_source_steal st sp hfree hrec
  rcases stealFold_spec st.sources 0 1000 (-1) with ⟨hmin, _, hdisj⟩
  constructor
  · rintro ⟨s0, hs0mem, hs0p⟩
    rcases List.getElem?_of_mem hs0mem with ⟨j0, hj0⟩
    rcases hdisj with heq | ⟨j, s, hj, hact, hpri, _, hidx, hmindex⟩
    · exfalso
      have h1000 := hmin j0 s0 hj0 (hall s0 hs0mem)
      rw [heq] at h1000
      dsimp only at h1000
      omega
    · refine ⟨j, s, hj, ?_, ?_, ?_⟩
      · rw [hsteal, hidx]
        rw [Nat.zero_add]
        rw [if_pos (by omega : (0 : Int) ≤ (j : Int))]
        rw [Int.toNat_ofNat]
      · intro k t ht
        rw [hpri]
        exact hmin k t ht (hall t (List.getElem?_mem ht))
      · intro k t hk ht
        rw [hpri]
        exact hmindex k t hk ht (hall t (List.getElem?_mem ht))
  · intro hge
    rcases hdisj with heq | ⟨j, s, hj, hact, hpri, hplt, _, _⟩
    · rw [hsteal, heq]
      norm_num
    · exfalso
      have := hge s (List.getElem?_mem hj)
      omega

theorem cleanupStep_keeps_looping (sp : Nat → Bool) (st : AudioState) (j i : Nat)
    (s : Source) (hInv : InvP st) (hs : st.sources[i]? = some s)
    (hl : s.looping = true) :
    (cleanupStep sp st j).sources[i]? = some s := by
  rcases cleanupStep_cases sp st j hInv with hc | ⟨t, ht, hta, htl, hc⟩
  · rw [hc]; exact hs
  · rw [hc]
    dsimp only
    by_cases hji : j = i
    · subst hji
      rw [ht] at hs
      injection hs with hs
      rw [hs] at htl
      rw [hl] at htl
      cases htl
    · rw [List.getElem?_set_ne hji]
      exact hs

theorem cleanupLoop_keeps_looping (sp : Nat → Bool) (i : Nat) (s : Source) :
    ∀ (n : Nat) (st : AudioState), InvP st → st.sources[i]? = some s →
      s.looping = true → (cleanupLoop sp n st).sources[i]? = some s := by
  intro n
  induction n with
  | zero => intro st _ hs _; exact hs
  | succ m ih =>
    intro st hInv hs hl
    exact cleanupStep_keeps_looping sp (cleanupLoop sp m st) m i s
      (InvP_cleanupLoop sp m st hInv) (ih st hInv hs hl) hl

theorem stop_noop_no_match (st : AudioState) (id : Int)
    (h : ∀ (i : Nat) (s : Source), st.sources[i]? = some s →
      ¬(s.active = true ∧ s.sound_id = id)) :
    audio_stop_sound st id = st := by
  unfold audio_stop_sound
  by_cases hg : st.initialized = false ∨ id ≤ 0
  · rw [if_pos hg]
  · rw [if_neg hg]
    have hnone : findFirstIdx (fun s => s.active && (s.sound_id == id)) st.sources = none := by
      rw [findFirstIdx_eq_none_iff]
      intro s hsmem
      rcases List.getElem?_of_mem hsmem with ⟨i, hi⟩
      by_cases hsa : s.active = true
      · by_cases hid : s.sound_id = id
        · exact absurd ⟨hsa, hid⟩ (h i s hi)
        · simp [beq_eq_false_iff_ne.mpr hid]
      · have hsa' : s.active = false := by simpa using hsa
        simp [hsa']
    rw [hnone]

theorem stop_releases_match (st : AudioState) (id : Int) (i : Nat) (s : Source)
    (hInv : InvP st) (hinit : st.initialized = true)
    (hs : st.sources[i]? = some s) (hsa : s.active = true) (hid : s.sound_id = id) :
    audio_stop_sound st id =
      { st with sources := st.sources.set i (releasedSlot s),
                active_sources := st.active_sources - 1 } := by
  have hpos : 0 < id := by
    have := (hInv.2.1 i s hs).2 hsa
    omega
  unfold audio_stop_sound
  rw [if_neg (by simp [hinit]; omega)]
  have hfind : findFirstIdx (fun t => t.active && (t.sound_id == id)) st.sources = some i := by
    rw [findFirstIdx_eq_some_iff]
    refine ⟨⟨s, hs, by simp [hsa, beq_iff_eq.mpr hid]⟩, ?_⟩
    intro k hk t ht
    by_cases hta : t.active = true
    · have hne : t.sound_id ≠ id := by
        intro he
        exact (hInv.2.2 k i t s (by omega) ht hs hta hsa) (by rw [he, hid])
      simp [hta, beq_eq_false_iff_ne.mpr hne]
    · have hta' : t.active = false := by simpa using hta
      simp [hta']
  rw [hfind]
  exact releaseAt_spec st i s hs

theorem play_engine_disabled (st : AudioState) (fn : Option String) (v : ℚ)
    (lo : Bool) (pr : Int) (sp : Nat → Bool) (ok : Bool)
    (h : st.audio_enabled = false) :
    audio_play_sound st fn v lo pr sp ok = (st, -1) := by
  unfold audio_play_sound
  rw [if_pos (by simp [h])]

theorem play_uninit (st : AudioState) (fn : Option String) (v : ℚ)
    (lo : Bool) (pr : Int) (sp : Nat → Bool) (ok : Bool)
    (h : st.initialized = false) :
    audio_play_sound st fn v lo pr sp ok = (st, -1) := by
  unfold audio_play_sound
  rw [if_pos (by simp [h])]

theorem music_disabled (st : AudioState) (fn : Option String) (v : ℚ)
    (lo : Bool) (sp : Nat → Bool) (ok : Bool)
    (h : st.music_enabled = false) :
    audio_play_music st fn v lo sp ok = (st, -1) := by
  unfold audio_play_music
  rw [if_pos (by simp [h])]

theorem music_engine_disabled (st : AudioState) (fn : Option String) (v : ℚ)
    (lo : Bool) (sp : Nat → Bool) (ok : Bool)
    (h : st.audio_enabled = false) :
    audio_play_music st fn v lo sp ok = (st, -1) := by
  unfold audio_play_music
  by_cases h0 : (!(st.initialized && st.music_enabled)) = true
  · rw [if_pos h0]
  · rw [if_neg h0]
    exact play_engine_disabled st fn (v * st.music_volume) lo 100 sp ok h

theorem play_null_filename (st : AudioState) (v : ℚ) (lo : Bool) (pr : Int)
    (sp : Nat → Bool) (ok : Bool) :
    audio_play_sound st none v lo pr sp ok = (st, -1) := by
  unfold audio_play_sound
  by_cases h0 : (!(st.initialized && st.audio_enabled)) = true
  · rw [if_pos h0]
  · rw [if_neg h0]

theorem play_empty_filename (st : AudioState) (v : ℚ) (lo : Bool) (pr : Int)
    (sp : Nat → Bool) (ok : Bool) :
    audio_play_sound st (some "") v lo pr sp ok = (st, -1) := by
  unfold audio_play_sound
  by_cases h0 : (!(st.initialized && st.audio_enabled)) = true
  · rw [if_pos h0]
  · rw [if_neg h0]
    dsimp only
    rw [if_pos (by decide)]


/-- C1 (amended): once rules 1 and 2 of get_available_source fail, eviction
    picks the occupied slot with the lowest priority only among occupants of
    priority below 1000 (the C accumulator starts at 1000, ties to the lowest
    index); when every occupant's priority is 1000 or more the function
    returns the no-voice-available failure even though the pool is
    non-empty. -/
theorem C1_eviction_caps_at_1000 (st : AudioState) (sp : Nat → Bool)
    (hall : ∀ s ∈ st.sources, s.active = true)
    (hstop : ∀ (j : Nat) (s : Source), st.sources[j]? = some s → sp j = false) :
    ((∃ s ∈ st.sources, s.priority < 1000) →
       ∃ (i : Nat) (s : Source), st.sources[i]? = some s ∧
         get_available_source st sp = (some i, releaseAt st i) ∧
         (∀ (k : Nat) (t : Source), st.sources[k]? = some t → s.priority ≤ t.priority) ∧
         (∀ (k : Nat) (t : Source), k < i → st.sources[k]? = some t → s.priority < t.priority)) ∧
    ((∀ s ∈ st.sources, 1000 ≤ s.priority) →
       get_available_source st sp = (none, st)) :=
  gas_rule3_spec st sp hall hstop

/-- C1 witness: the amended theorem applied to the all-priority-1000 pool. -/
theorem C1_eviction_caps_at_1000_witness :
    get_available_source stAllHigh spNone = (none, stAllHigh) :=
  (C1_eviction_caps_at_1000 stAllHigh spNone (by decide) (fun _ _ _ => rfl)).2 (by decide)

/-- C1 counterexample: a pool of 32 occupants, all of priority 1000 — rules 1
    and 2 fail, yet acquisition returns the no-voice failure, so the claim
    that a non-empty pool never reports NoVoiceAvailable is false. -/
theorem C1_counterexample :
    stAllHigh.sources.length = 32 ∧
    (∀ s ∈ stAllHigh.sources, s.active = true) ∧
    (get_available_source stAllHigh spNone).1 = none ∧
    (audio_play_sound stAllHigh (some "a.wav") 1 false 5000 spNone true).2 = -1 :=
  ⟨by decide, by decide, by decide, by decide⟩

/-- C2 (amended): audio_play_sound writes gain = call_volume * master_volume
    * sfx_volume with no clamping of the call volume, and audio_play_music
    pre-multiplies the call volume by music_volume before delegating, so an
    admitted Music playback's gain is call_volume * music_volume *
    master_volume * sfx_volume — it IS additionally multiplied by
    sfx_volume. -/
theorem C2_gain_formula :
    (∀ (st : AudioState) (fn : Option String) (v : ℚ) (lo : Bool) (pr : Int)
       (sp : Nat → Bool) (ok : Bool),
       0 < (audio_play_sound st fn v lo pr sp ok).2 →
       ∃ (si : Nat) (s' : Source),
         (audio_play_sound st fn v lo pr sp ok).1.sources[si]? = some s' ∧
         s'.sound_id = (audio_play_sound st fn v lo pr sp ok).2 ∧
         s'.gain = v * st.master_volume * st.sfx_volume) ∧
    (∀ (st : AudioState) (fn : Option String) (v : ℚ) (lo : Bool)
       (sp : Nat → Bool) (ok : Bool),
       0 < (audio_play_music st fn v lo sp ok).2 →
       ∃ (si : Nat) (s' : Source),
         (audio_play_music st fn v lo sp ok).1.sources[si]? = some s' ∧
         s'.gain = v * st.music_volume * st.master_volume * st.sfx_volume) := by
  constructor
  · intro st fn v lo pr sp ok hpos
    rcases play_success_spec st fn v lo pr sp ok hpos with
      ⟨hret, _, si, s', hslot, _, hsid, _, _, _, hg⟩
    exact ⟨si, s', hslot, by rw [hsid, hret], hg⟩
  · intro st fn v lo sp ok hpos
    unfold audio_play_music at hpos ⊢
    by_cases h0 : (!(st.initialized && st.music_enabled)) = true
    · rw [if_pos h0] at hpos
      exact absurd hpos (by norm_num)
    · rw [if_neg h0] at hpos ⊢
      rcases play_success_spec st fn (v * st.music_volume) lo 100 sp ok hpos with
        ⟨_, _, si, s', hslot, _, _, _, _, _, hg⟩
      exact ⟨si, s', hslot, hg⟩

/-- C2 witness: the amended theorem applied to a fresh engine. -/
theorem C2_gain_formula_witness :
    ∃ (si : Nat) (s' : Source),
      (audio_play_sound initState (some "a.wav") (1/2) false 7 spNone true).1.sources[si]?
        = some s' ∧
      s'.sound_id = (audio_play_sound initState (some "a.wav") (1/2) false 7 spNone true).2 ∧
      s'.gain = (1/2) * initState.master_volume * initState.sfx_volume :=
  C2_gain_formula.1 initState (some "a.wav") (1/2) false 7 spNone true (by decide)

/-- C2 counterexample: on a fresh engine (master 1, music 7/10, sfx 4/5) a
    music playback at call volume 1 is given gain (1 * 7/10) * 1 * (4/5) =
    14/25, not the specified clamp(1) * 1 * 7/10 = 7/10; and an effect
    playback at call volume 2 is given gain 2 * 1 * (4/5), exceeding the
    clamped value the spec's formula yields. -/
theorem C2_counterexample :
    ((audio_play_music initState (some "m.wav") 1 false spNone true).1.sources[0]?).map
        (fun s => s.gain) = some (1 * (7/10) * 1 * (4/5)) ∧
    effective_gain_spec 1 1 (7/10) (4/5) Category.music = 7/10 ∧
    (1 * (7/10) * 1 * (4/5) : ℚ) ≠ 7/10 ∧
    ((audio_play_sound initState (some "a.wav") 2 false 0 spNone true).1.sources[0]?).map
        (fun s => s.gain) = some (2 * 1 * (4/5)) ∧
    (2 * 1 * (4/5) : ℚ) ≠ effective_gain_spec 2 1 (7/10) (4/5) Category.effect := by
  refine ⟨rfl, ?_, by norm_num, rfl, ?_⟩
  · simp only [effective_gain_spec]
    norm_num
  · simp only [effective_gain_spec]
    norm_num

/-- C3 (amended): audio_init never checks whether the backend device opened.
    With alcOpenDevice failing it still returns 1, marks the engine
    initialized, flags the reaper loop as running, and leaves the device and
    context fields exactly as initialize_openal found them (it merely logged
    the failure). -/
theorem C3_init_ignores_device_failure (st : AudioState) (c cur t : Bool) :
    (audio_init st false c cur t).2 = 1 ∧
    (audio_init st false c cur t).1.initialized = true ∧
    (audio_init st false c cur t).1.audio_thread_running = true ∧
    (audio_init st false c cur t).1.device_open = st.device_open ∧
    (audio_init st false c cur t).1.context_ready = st.context_ready :=
  ⟨rfl, rfl, rfl, rfl, rfl⟩

/-- C3 counterexample: from the zeroed static state with the device failing
    to open, audio_init reports success (1), marks the engine initialized and
    the reaper loop running — the claim that init fails and leaves nothing
    running is false. -/
theorem C3_counterexample :
    (audio_init zeroState false true true true).2 = 1 ∧
    (audio_init zeroState false true true true).1.initialized = true ∧
    (audio_init zeroState false true true true).1.audio_thread_running = true ∧
    (audio_init zeroState false true true true).1.device_open = false :=
  ⟨rfl, rfl, rfl, rfl⟩

/-- C4 (amended): with the engine disabled, audio_play_sound and
    audio_play_music return -1 and change nothing; with music_enabled false,
    audio_play_music returns -1 and changes nothing; but audio_play_sound
    never consults sfx_enabled — with sfx_enabled false and the engine
    enabled, a playback request is admitted normally. -/
theorem C4_disabled_gates :
    (∀ (st : AudioState) (fn : Option String) (v : ℚ) (lo : Bool) (pr : Int)
       (sp : Nat → Bool) (ok : Bool), st.audio_enabled = false →
       audio_play_sound st fn v lo pr sp ok = (st, -1)) ∧
    (∀ (st : AudioState) (fn : Option String) (v : ℚ) (lo : Bool)
       (sp : Nat → Bool) (ok : Bool), st.music_enabled = false →
       audio_play_music st fn v lo sp ok = (st, -1)) ∧
    (∀ (st : AudioState) (fn : Option String) (v : ℚ) (lo : Bool)
       (sp : Nat → Bool) (ok : Bool), st.audio_enabled = false →
       audio_play_music st fn v lo sp ok = (st, -1)) ∧
    (∀ (v : ℚ) (lo : Bool) (pr : Int),
       (audio_play_sound stNoSfx (some "a.wav") v lo pr spNone true).2 = 1 ∧
       (audio_play_sound stNoSfx (some "a.wav") v lo pr spNone true).1.active_sources = 1) := by
  refine ⟨?_, ?_, ?_, ?_⟩
  · intro st fn v lo pr sp ok h
    exact play_engine_disabled st fn v lo pr sp ok h
  · intro st fn v lo sp ok h
    exact music_disabled st fn v lo sp ok h
  · intro st fn v lo sp ok h
    exact music_engine_disabled st fn v lo sp ok h
  · intro v lo pr
    exact ⟨rfl, rfl⟩

/-- C4 witness: the engine-disabled gate applied at a concrete state. -/
theorem C4_disabled_gates_witness :
    audio_play_sound ({ initState with audio_enabled := false }) (some "b.wav") 1 false 3 spNone true
      = ({ initState with audio_enabled := false }, -1) :=
  C4_disabled_gates.1 ({ initState with audio_enabled := false }) (some "b.wav") 1 false 3
    spNone true rfl

/-- C4 counterexample: with sfx_enabled = false but the engine enabled, the
    call is not the claimed Disabled no-op — it is admitted (returns id 1)
    and occupies a voice. -/
theorem C4_counterexample :
    stNoSfx.sfx_enabled = false ∧ stNoSfx.audio_enabled = true ∧
    (audio_play_sound stNoSfx (some "a.wav") 1 false 10 spNone true).2 = 1 ∧
    (audio_play_sound stNoSfx (some "a.wav") 1 false 10 spNone true).1.active_sources = 1 :=
  ⟨rfl, rfl, rfl, rfl⟩

/-- C5: get_available_source evaluates its rules in strict order — the
    lowest-indexed free slot wins outright; only with no free slot is the
    first backend-stopped occupant reclaimed; only with neither does priority
    eviction run, and an evicted slot is a global priority minimum with ties
    broken by the lowest index.  Concretely, with occupants of priorities
    [5,1,9,3] a request of priority 0 evicts slot 1 (priority 1) and gets id
    5 there, and after stop(1) frees slot 0 of the two-voice pool, the next
    request lands in slot 0 by rule 1, leaving slot 1 (id 2) untouched. -/
theorem C5_strict_rule_order :
    (∀ (st : AudioState) (sp : Nat → Bool) (i : Nat) (s : Source),
       st.sources[i]? = some s → s.active = false →
       (∀ (k : Nat) (t : Source), k < i → st.sources[k]? = some t → t.active = true) →
       get_available_source st sp = (some i, st)) ∧
    (∀ (st : AudioState) (sp : Nat → Bool) (i : Nat),
       (∀ t ∈ st.sources, t.active = true) → i < st.sources.length →
       sp i = true → (∀ k : Nat, k < i → sp k = false) →
       get_available_source st sp = (some i, releaseAt st i)) ∧
    (∀ (st : AudioState) (sp : Nat → Bool) (i : Nat),
       (∀ t ∈ st.sources, t.active = true) →
       (∀ (j : Nat) (u : Source), st.sources[j]? = some u → sp j = false) →
       (get_available_source st sp).1 = some i →
       ∃ s : Source, st.sources[i]? = some s ∧
         (∀ (k : Nat) (t : Source), st.sources[k]? = some t → s.priority ≤ t.priority) ∧
         (∀ (k : Nat) (t : Source), k < i → st.sources[k]? = some t → s.priority < t.priority)) ∧
    (get_available_source st4 spNone = (some 1, releaseAt st4 1) ∧
     (audio_play_sound st4 (some "c.wav") 1 false 0 spNone true).2 = 5 ∧
     ((audio_play_sound st4 (some "c.wav") 1 false 0 spNone true).1.sources[1]?).map
       (fun s => s.sound_id) = some 5) ∧
    ((get_available_source (audio_stop_sound st2occ 1) spAll).1 = some 0 ∧
     (audio_play_sound (audio_stop_sound st2occ 1) (some "d.wav") 1 false 1 spNone true).2 = 3 ∧
     ((audio_play_sound (audio_stop_sound st2occ 1) (some "d.wav") 1 false 1 spNone
        true).1.sources[1]?).map (fun s => s.sound_id) = some 2) := by
  refine ⟨?_, ?_, ?_, ⟨rfl, rfl, rfl⟩, ⟨rfl, rfl, rfl⟩⟩
  · intro st sp i s hs hfree hbefore
    exact gas_rule1_first_free st sp i s hs hfree hbefore
  · intro st sp i hall hlt hsp hbefore
    exact gas_rule2_first_stopped st sp i hall hlt hsp hbefore
  · intro st sp i hall hstop hsome
    by_cases hex : ∃ s ∈ st.sources, s.priority < 1000
    · rcases (gas_rule3_spec st sp hall hstop).1 hex with ⟨i0, s, hs, hgas, hmin, htie⟩
      rw [hgas] at hsome
      dsimp only at hsome
      injection hsome with hsome
      subst hsome
      exact ⟨s, hs, hmin, htie⟩
    · push_neg at hex
      have hnone := (gas_rule3_spec st sp hall hstop).2 hex
      rw [hnone] at hsome
      dsimp only at hsome
      cases hsome

/-- C5 witness: rule 1 wins even when the backend reports every slot stopped
    — after stop(1) frees slot 0, acquisition returns slot 0 with no state
    change, not a reclamation or eviction. -/
theorem C5_strict_rule_order_witness :
    get_available_source (audio_stop_sound st2occ 1) spAll
      = (some 0, audio_stop_sound st2occ 1) :=
  C5_strict_rule_order.1 (audio_stop_sound st2occ 1) spAll 0 (releasedSlot (occ 1 10)) rfl rfl
    (fun k t hk _ => absurd hk (by omega))

set_option maxRecDepth 4096 in
/-- C6: evaluation at the failing input.  One finished non-looping voice
    (backend stopped, active_sources = 1): a single reaper tick fires the
    completion callback exactly once with the still-set playback id (trace
    [1]) but decrements active_sources twice — to -1 instead of 0 — because
    audio_mark_complete, invoked as the callback, matches the slot by its
    not-yet-cleared sound_id and releases it again before
    cleanup_completed_sources performs its own decrement.  A second tick
    changes nothing further. -/
theorem C6_double_decrement_eval :
    s6.active_sources = 1 ∧ s6.completed = [] ∧
    (cleanup_completed_sources spAll s6).completed = [1] ∧
    (cleanup_completed_sources spAll s6).active_sources = -1 ∧
    (cleanup_completed_sources spAll (cleanup_completed_sources spAll s6)).completed = [1] ∧
    (cleanup_completed_sources spAll (cleanup_completed_sources spAll s6)).active_sources = -1 :=
  ⟨by decide, by decide, by decide, by decide, by decide, by decide⟩

/-- C7: a voice whose looping flag is set is never released by the reaper
    tick, whatever the backend reports — its slot is bit-for-bit unchanged
    after cleanup_completed_sources. -/
theorem C7_looping_never_reaped (st : AudioState) (sp : Nat → Bool) (i : Nat)
    (s : Source) (hInv : Inv st) (hs : st.sources[i]? = some s)
    (hl : s.looping = true) :
    (cleanup_completed_sources sp st).sources[i]? = some s :=
  cleanupLoop_keeps_looping sp i s st.sources.length st ((Inv_iff_InvP st).mp hInv) hs hl

/-- C7 witness: the looping playback of s7 survives a tick in which the
    backend reports every slot stopped. -/
theorem C7_looping_never_reaped_witness :
    (cleanup_completed_sources spAll s7).sources[0]? = some s7slot :=
  C7_looping_never_reaped s7 spAll 0 s7slot (by decide) rfl rfl

/-- C8: after any sequence of play, play-music, stop, stop-all and
    reaper-tick operations from the initialized state, the pool invariant
    holds — no two active voices share a playback id, a free slot's id is 0,
    and every active id sits strictly below next_sound_id; moreover an
    admission in any invariant state hands out exactly next_sound_id, bumps
    it, and that id is strictly above every id currently active, while no
    operation ever decreases next_sound_id — so successive admissions get
    strictly increasing, never-reused ids. -/
theorem C8_playback_id_uniqueness :
    (∀ ops : List AOp, Inv (runOps ops initState)) ∧
    (∀ (st : AudioState) (fn : Option String) (v : ℚ) (lo : Bool) (pr : Int)
       (sp : Nat → Bool) (ok : Bool), Inv st →
       0 < (audio_play_sound st fn v lo pr sp ok).2 →
       (audio_play_sound st fn v lo pr sp ok).2 = st.next_sound_id ∧
       (audio_play_sound st fn v lo pr sp ok).1.next_sound_id = st.next_sound_id + 1 ∧
       (∀ (i : Nat) (s : Source), st.sources[i]? = some s → s.active = true →
          s.sound_id < (audio_play_sound st fn v lo pr sp ok).2)) ∧
    (∀ (op : AOp) (st : AudioState), st.next_sound_id ≤ (applyOp op st).next_sound_id) := by
  refine ⟨?_, ?_, applyOp_next_mono⟩
  · intro ops
    rw [Inv_iff_InvP]
    exact InvP_runOps ops initState ((Inv_iff_InvP initState).mp (by decide))
  · intro st fn v lo pr sp ok hInv hpos
    rcases play_success_spec st fn v lo pr sp ok hpos with ⟨hret, hnx, _⟩
    refine ⟨hret, hnx, ?_⟩
    intro i s hs hact
    rw [hret]
    exact (((Inv_iff_InvP st).mp hInv).2.1 i s hs).2 hact |>.2

/-- C8 witness: the admission clause applied to the fresh engine. -/
theorem C8_playback_id_uniqueness_witness :
    (audio_play_sound initState (some "a.wav") 1 false 10 spNone true).2
      = initState.next_sound_id ∧
    (audio_play_sound initState (some "a.wav") 1 false 10 spNone true).1.next_sound_id
      = initState.next_sound_id + 1 ∧
    (∀ (i : Nat) (s : Source), initState.sources[i]? = some s → s.active = true →
       s.sound_id < (audio_play_sound initState (some "a.wav") 1 false 10 spNone true).2) :=
  C8_playback_id_uniqueness.2.1 initState (some "a.wav") 1 false 10 spNone true
    (by decide) (by decide)

/-- C9: audio_stop_sound releases the unique active voice carrying the id —
    clearing the slot and decrementing the active count by one — and is a
    state-preserving no-op for a non-positive id, an uninitialized engine, or
    an id no active voice holds. -/
theorem C9_stop_sound_spec :
    (∀ (st : AudioState) (id : Int), id ≤ 0 → audio_stop_sound st id = st) ∧
    (∀ (st : AudioState) (id : Int), st.initialized = false →
       audio_stop_sound st id = st) ∧
    (∀ (st : AudioState) (id : Int),
       (∀ (i : Nat) (s : Source), st.sources[i]? = some s →
          ¬(s.active = true ∧ s.sound_id = id)) →
       audio_stop_sound st id = st) ∧
    (∀ (st : AudioState) (id : Int) (i : Nat) (s : Source), Inv st →
       st.initialized = true → st.sources[i]? = some s → s.active = true →
       s.sound_id = id →
       audio_stop_sound st id =
         { st with sources := st.sources.set i (releasedSlot s),
                   active_sources := st.active_sources - 1 }) := by
  refine ⟨?_, ?_, ?_, ?_⟩
  · intro st id h
    unfold audio_stop_sound
    rw [if_pos (Or.inr h)]
  · intro st id h
    unfold audio_stop_sound
    rw [if_pos (Or.inl h)]
  · exact fun st id h => stop_noop_no_match st id h
  · intro st id i s hInv hinit hs hsa hid
    exact stop_releases_match st id i s ((Inv_iff_InvP st).mp hInv) hinit hs hsa hid

/-- C9 witness: stopping the one admitted playback of s6 releases slot 0 and
    decrements the count by one. -/
theorem C9_stop_sound_spec_witness :
    audio_stop_sound s6 1 =
      { s6 with sources := s6.sources.set 0 (releasedSlot s6slot),
                active_sources := s6.active_sources - 1 } :=
  C9_stop_sound_spec.2.2.2 s6 1 0 s6slot (by decide) rfl rfl rfl rfl

/-- C10: with the engine initialized and enabled, audio_play_sound on a NULL
    or empty filename returns -1 and leaves the engine state — pool,
    next_sound_id, next_buffer_index, active-source count — exactly
    unchanged. -/
theorem C10_invalid_filename_noop (st : AudioState) (v : ℚ) (lo : Bool) (pr : Int)
    (sp : Nat → Bool) (ok : Bool) (h1 : st.initialized = true)
    (h2 : st.audio_enabled = true) :
    audio_play_sound st none v lo pr sp ok = (st, -1) ∧
    audio_play_sound st (some "") v lo pr sp ok = (st, -1) :=
  ⟨play_null_filename st v lo pr sp ok, play_empty_filename st v lo pr sp ok⟩

/-- C10 witness: the no-op at the fresh engine. -/
theorem C10_invalid_filename_noop_witness :
    audio_play_sound initState none 1 false 0 spNone true = (initState, -1) ∧
    audio_play_sound initState (some "") 1 false 0 spNone true = (initState, -1) :=
  C10_invalid_filename_noop initState 1 false 0 spNone true rfl rfl

end FluffyAudio
